import Mathlib

/-!
Shallow embedding of `src/installer/fabric.rs` (conic-apps/launcher-core).

The pure resolution and assembly logic of `install_fabric` is translated
into executable Lean definitions; the filesystem effects of the writer are
modelled by explicit state passing over a path-indexed store.  Machine
strings are Lean `String`s; `serde_json::Value` is modelled by the
inductive `Json`; fallible operations return `Except`/`Option`.
-/

set_option autoImplicit false
set_option maxRecDepth 8192

namespace Fabric

/-- Model of `serde_json::Value`. -/
inductive Json where
  | null
  | bool (b : Bool)
  | num (n : Int)
  | str (s : String)
  | arr (elems : List Json)
  | obj (fields : List (String × Json))

/-- `find` of a key in the fields of a JSON object (serde map lookup). -/
def lookupObj (fields : List (String × Json)) (k : String) : Option Json :=
  (fields.find? (fun f => f.1 == k)).map Prod.snd

/-- Model of `serde_json::Value` square-bracket indexing with a string key:
on an object it returns the value (or Null when absent), on every other
variant it returns Null. -/
def Json.index (j : Json) (k : String) : Json :=
  match j with
  | .obj fields => (lookupObj fields k).getD Json.null
  | _ => Json.null

/-- Model of `Value::as_str`: `Some` exactly on the string variant. -/
def Json.as_str : Json → Option String
  | .str s => some s
  | _ => none

/-- `FabricArtifactVersion` (fabric.rs lines 7-15). -/
structure FabricArtifactVersion where
  gameVersion : Option String
  separator : Option String
  build : Option Nat
  maven : String
  version : String
  stable : Bool

/-- `LauncherMetaLibrariesItems` (fabric.rs lines 44-48). -/
structure LauncherMetaLibrariesItems where
  name : Option String
  url : Option String
deriving DecidableEq, Repr

/-- `LauncherMetaLibraries` (fabric.rs lines 37-42). -/
structure LauncherMetaLibraries where
  client : List LauncherMetaLibrariesItems
  common : List LauncherMetaLibrariesItems
  server : List LauncherMetaLibrariesItems

/-- `LauncherMeta` (fabric.rs lines 30-35); `mainClass` is an untyped
`serde_json::Value`. -/
structure LauncherMeta where
  version : Nat
  libraries : LauncherMetaLibraries
  mainClass : Json

/-- `FabricLoaderArtifact` (fabric.rs lines 23-28). -/
structure FabricLoaderArtifact where
  loader : FabricArtifactVersion
  intermediary : FabricArtifactVersion
  launcherMeta : LauncherMeta

/-- `FabricInstallSide` (fabric.rs lines 113-116). -/
inductive FabricInstallSide where
  | Client
  | Server

/-- `YarnVersion` (fabric.rs lines 118-121). -/
inductive YarnVersion where
  | String (s : String)
  | FabricArtifactVersion (v : FabricArtifactVersion)

/-- `FabricInstallOptions` (fabric.rs lines 122-130). -/
structure FabricInstallOptions where
  inherits_from : Option String
  version_id : Option String
  size : Option FabricInstallSide
  yarn_version : Option YarnVersion

/-- The `yarn` variable of `install_fabric` (fabric.rs lines 143-156):
the mapping selector's version string, when a selector was supplied. -/
def resolveYarn (options : FabricInstallOptions) : Option String :=
  match options.yarn_version with
  | some (YarnVersion.String s) => some s
  | some (YarnVersion.FabricArtifactVersion v) => some v.version
  | none => none

/-- The `minecraft_version` variable of `install_fabric` (fabric.rs lines
141-156): it stays `""` when a mapping selector was supplied and is the
bundle's intermediary version otherwise. -/
def resolveMinecraftVersion (loader : FabricLoaderArtifact)
    (options : FabricInstallOptions) : String :=
  match options.yarn_version with
  | some _ => ""
  | none => loader.intermediary.version

/-- The `id` variable after the synthesis block of `install_fabric`
(fabric.rs lines 140, 157-169). -/
def resolveId (loader : FabricLoaderArtifact) (options : FabricInstallOptions) : String :=
  match options.version_id with
  | some v => v
  | none =>
    match resolveYarn options with
    | some _ => resolveMinecraftVersion loader options ++ "-loader" ++ loader.loader.version
    | none => resolveMinecraftVersion loader options ++ "-fabric" ++ loader.loader.version

/-- The `side` variable: `options.size.unwrap_or(FabricInstallSide::Client)`
(fabric.rs line 139). -/
def sideOf (options : FabricInstallOptions) : FabricInstallSide :=
  options.size.getD FabricInstallSide.Client

/-- The fixed repository URL attached to the synthesized library entries
(fabric.rs lines 173, 177, 183). -/
def fabricMavenUrl : String := "https://maven.fabricmc.net/"

/-- The side-specific library list chosen by the `match side` at fabric.rs
lines 187-194. -/
def sideLibraries (loader : FabricLoaderArtifact) (side : FabricInstallSide) :
    List LauncherMetaLibrariesItems :=
  match side with
  | FabricInstallSide.Client => loader.launcherMeta.libraries.client
  | FabricInstallSide.Server => loader.launcherMeta.libraries.server

/-- The `libraries` vector of `install_fabric` (fabric.rs lines 170-194):
loader coordinate, intermediary coordinate, optional synthesized yarn
coordinate, then the common list, then the side-specific list. -/
def buildLibraries (loader : FabricLoaderArtifact) (yarn : Option String)
    (side : FabricInstallSide) : List LauncherMetaLibrariesItems :=
  let base : List LauncherMetaLibrariesItems :=
    [ { name := some loader.loader.maven, url := some fabricMavenUrl },
      { name := some loader.intermediary.maven, url := some fabricMavenUrl } ]
  let withYarn : List LauncherMetaLibrariesItems :=
    match yarn with
    | some y => base ++ [ { name := some ("net.fabricmc:yarn:" ++ y), url := some fabricMavenUrl } ]
    | none => base
  withYarn ++ loader.launcherMeta.libraries.common ++ sideLibraries loader side

/-- `1` when a mapping layer was resolved, else `0`. -/
def yarnCount (yarn : Option String) : Nat :=
  match yarn with
  | some _ => 1
  | none => 0

/-- The optional synthesized yarn entry (fabric.rs lines 180-185) as a list. -/
def yarnLibs (yarn : Option String) : List LauncherMetaLibrariesItems :=
  match yarn with
  | some y => [ { name := some ("net.fabricmc:yarn:" ++ y), url := some fabricMavenUrl } ]
  | none => []

/-- The `main_class` computation of `install_fabric` (fabric.rs lines
195-204): index the untyped `mainClass` value by the side key, fall back
to reading the whole value as a string, and finally to `""`. -/
def selectMainClass (mc : Json) (side : FabricInstallSide) : String :=
  match side with
  | FabricInstallSide.Client => ((Json.index mc "client").as_str).getD ((mc.as_str).getD "")
  | FabricInstallSide.Server => ((Json.index mc "server").as_str).getD ((mc.as_str).getD "")

/-- The key the code indexes `mainClass` with for a given side. -/
def sideKey : FabricInstallSide → String
  | FabricInstallSide.Client => "client"
  | FabricInstallSide.Server => "server"

/-- Lowercase hexadecimal digit, as used by serde_json control escapes. -/
def hexDigitChar (n : Nat) : Char :=
  if n < 10 then Char.ofNat (48 + n) else Char.ofNat (87 + n)

/-- serde_json escaping of one character inside a JSON string literal. -/
def escapeChar (c : Char) : String :=
  if c = '"' then "\\\""
  else if c = '\\' then "\\\\"
  else if c = Char.ofNat 8 then "\\b"
  else if c = Char.ofNat 9 then "\\t"
  else if c = Char.ofNat 10 then "\\n"
  else if c = Char.ofNat 12 then "\\f"
  else if c = Char.ofNat 13 then "\\r"
  else if c.toNat < 32 then
    "\\u00" ++ String.singleton (hexDigitChar (c.toNat / 16))
      ++ String.singleton (hexDigitChar (c.toNat % 16))
  else String.singleton c

/-- A JSON string literal with serde_json escaping. -/
def jsonString (s : String) : String :=
  "\"" ++ String.join (s.data.map escapeChar) ++ "\""

/-- serde_json compact rendering of an `Option<String>` field value. -/
def optStringJson : Option String → String
  | some s => jsonString s
  | none => "null"

/-- serde_json compact rendering of one `LauncherMetaLibrariesItems` record. -/
def serializeLibItem (l : LauncherMetaLibrariesItems) : String :=
  "\x7b\"name\":" ++ optStringJson l.name ++ ",\"url\":" ++ optStringJson l.url ++ "\x7d"

/-- Model of `serde_json::to_string(&libraries)` (fabric.rs line 235): a
`Result` carrying the compact JSON array; for this data type serialization
cannot fail, so the result is always `some`. -/
def serdeToStringLibs (libs : List LauncherMetaLibrariesItems) : Option String :=
  some ("[" ++ String.intercalate "," (libs.map serializeLibItem) ++ "]")

/-- The `unwrap_or("".to_string())` fallback the code applies to the
serialized library list (fabric.rs line 235). -/
def librariesFieldOf (r : Option String) : String :=
  r.getD ""

/-- `FabricVersionJSONArg` (fabric.rs lines 226-230). -/
structure FabricVersionJSONArg where
  game : List Int
  jvm : List Int

/-- `FabricVersionJSON` (fabric.rs lines 216-225): the on-disk descriptor.
Note that `libraries` is a `String` field, so it serializes as an embedded
JSON string, not as a nested array. -/
structure FabricVersionJSON where
  id : String
  inheritsFrom : String
  mainClass : String
  libraries : String
  arguments : FabricVersionJSONArg
  releaseTime : String
  time : String

/-- The descriptor value built at fabric.rs lines 231-242. -/
def buildVersionJSON (loader : FabricLoaderArtifact) (options : FabricInstallOptions) :
    FabricVersionJSON :=
  { id := resolveId loader options
    inheritsFrom := options.inherits_from.getD (resolveMinecraftVersion loader options)
    mainClass := selectMainClass loader.launcherMeta.mainClass (sideOf options)
    libraries := librariesFieldOf (serdeToStringLibs
      (buildLibraries loader (resolveYarn options) (sideOf options)))
    arguments := { game := [], jvm := [] }
    releaseTime := "2023-05-13T15:58:54.493Z"
    time := "2023-05-13T15:58:54.493Z" }

/-- The serde field list of the serialized descriptor, in declaration
order, as a JSON object. -/
def descriptorJsonFields (d : FabricVersionJSON) : List (String × Json) :=
  [ ("id", Json.str d.id),
    ("inheritsFrom", Json.str d.inheritsFrom),
    ("mainClass", Json.str d.mainClass),
    ("libraries", Json.str d.libraries),
    ("arguments", Json.obj
      [ ("game", Json.arr (d.arguments.game.map Json.num)),
        ("jvm", Json.arr (d.arguments.jvm.map Json.num)) ]),
    ("releaseTime", Json.str d.releaseTime),
    ("time", Json.str d.time) ]

/-- serde_json pretty rendering of an integer list at nesting depth two. -/
def prettyIntList : List Int → String
  | [] => "[]"
  | xs => "[\n      "
      ++ String.intercalate ",\n      " (xs.map (fun n => toString n))
      ++ "\n    ]"

/-- serde_json pretty rendering of the `arguments` block at depth one. -/
def prettyArgs (a : FabricVersionJSONArg) : String :=
  "\x7b\n    \"game\": " ++ prettyIntList a.game
    ++ ",\n    \"jvm\": " ++ prettyIntList a.jvm
    ++ "\n  \x7d"

/-- Model of `serde_json::to_string_pretty(&version_json)` (fabric.rs line
243): two-space indentation, fields in declaration order. -/
def toStringPretty (d : FabricVersionJSON) : String :=
  "\x7b\n  \"id\": " ++ jsonString d.id
    ++ ",\n  \"inheritsFrom\": " ++ jsonString d.inheritsFrom
    ++ ",\n  \"mainClass\": " ++ jsonString d.mainClass
    ++ ",\n  \"libraries\": " ++ jsonString d.libraries
    ++ ",\n  \"arguments\": " ++ prettyArgs d.arguments
    ++ ",\n  \"releaseTime\": " ++ jsonString d.releaseTime
    ++ ",\n  \"time\": " ++ jsonString d.time
    ++ "\n\x7d"

/-- A filesystem path as a list of components. -/
abbrev Path : Type := List String

/-- One filesystem entry: a regular file with its content, or a directory. -/
inductive FsEntry where
  | file (content : String)
  | dir
deriving DecidableEq, Repr

/-- A filesystem state: what (if anything) lives at each path. -/
abbrev FsState : Type := Path → Option FsEntry

/-- The empty filesystem (only the implicit root). -/
def emptyFs : FsState := fun _ => none

/-- Pointwise update of a filesystem state. -/
def setFs (fs : FsState) (p : Path) (v : Option FsEntry) : FsState :=
  fun q => if q = p then v else fs q

/-- `pathUnder p q` holds when `p` is an initial segment of `q`, i.e. `q`
is `p` itself or lies inside the directory `p`. -/
def pathUnder : Path → Path → Bool
  | [], _ => true
  | _ :: _, [] => false
  | a :: as, b :: bs => a == b && pathUnder as bs

/-- `q` lies strictly inside the directory `p`. -/
def strictlyUnder (p q : Path) : Bool :=
  pathUnder p q && decide (p ≠ q)

/-- Model of `std::fs::remove_dir_all`: drop the entry and everything
under it. -/
def removeDirAll (fs : FsState) (p : Path) : FsState :=
  fun q => if pathUnder p q = true then none else fs q

/-- Model of `std::fs::create_dir_all` walking the missing components:
`base` is the already-secured ancestor, `rest` the components still to
create.  A regular file in the way makes the call fail. -/
def mkdirAllFrom (fs : FsState) (base : Path) : List String → Except String FsState
  | [] => Except.ok fs
  | d :: rest =>
    match fs (base ++ [d]) with
    | some (FsEntry.file _) => Except.error "create_dir_all: a component is a regular file"
    | some FsEntry.dir => mkdirAllFrom fs (base ++ [d]) rest
    | none => mkdirAllFrom (setFs fs (base ++ [d]) (some FsEntry.dir)) (base ++ [d]) rest

/-- Model of `std::fs::create_dir_all` from the root. -/
def mkdirAll (fs : FsState) (p : Path) : Except String FsState :=
  mkdirAllFrom fs [] p

/-- The removal step at fabric.rs lines 209-215: if `fs::metadata`
succeeds, `remove_file` when the entry is a file, `remove_dir_all`
otherwise, and nothing when the path does not exist. -/
def removeExisting (fs : FsState) (p : Path) : FsState :=
  match fs p with
  | some (FsEntry.file _) => setFs fs p none
  | some FsEntry.dir => removeDirAll fs p
  | none => fs

/-- The writer step of `install_fabric` (fabric.rs lines 207-246):
`create_dir_all` on the parent, then if an entry exists at the target
remove it (`remove_file` for a file, `remove_dir_all` for a directory),
then write the serialized descriptor as the file content. -/
def writeVersionFile (fs : FsState) (p : Path) (c : String) : Except String FsState :=
  match mkdirAll fs p.dropLast with
  | Except.error e => Except.error e
  | Except.ok fs1 => Except.ok (setFs (removeExisting fs1 p) p (some (FsEntry.file c)))

/-- Outcome of one `install_fabric` call.  The Rust function returns a
plain `String` and calls `.unwrap()` on every filesystem step, so a
failing step does not produce an error value: it aborts the process,
modelled by `panicked`. -/
inductive InstallOutcome where
  | ok (id : String) (fs : FsState)
  | panicked

/-- The returned id of an outcome, when the call did not panic. -/
def outcomeId : InstallOutcome → Option String
  | InstallOutcome.ok i _ => some i
  | InstallOutcome.panicked => none

/-- `install_fabric` (fabric.rs lines 133-249).  `get_version_json` is the
external path-layout function `id -> path` of `MinecraftLocation`. -/
def install_fabric (loader : FabricLoaderArtifact) (get_version_json : String → Path)
    (options : FabricInstallOptions) (fs : FsState) : InstallOutcome :=
  let vj := buildVersionJSON loader options
  match writeVersionFile fs (get_version_json vj.id) (toStringPretty vj) with
  | Except.ok fs1 => InstallOutcome.ok vj.id fs1
  | Except.error _ => InstallOutcome.panicked

/-- Well-formed filesystem: every existing entry has all of its proper
non-root ancestors present as directories. -/
def FsWf (fs : FsState) : Prop :=
  ∀ p e, fs p = some e → ∀ q, q ≠ [] → strictlyUnder q p = true → fs q = some FsEntry.dir

/-- A concrete loader-artifact bundle, mirroring the bundle of the spec's
concrete scenario (loader 0.1.0.48 for Minecraft 1.19.4). -/
def sampleLoader : FabricLoaderArtifact :=
  { loader :=
      { gameVersion := none, separator := some ".", build := some 48,
        maven := "net.fabricmc:fabric-loader:0.1.0.48", version := "0.1.0.48", stable := true }
    intermediary :=
      { gameVersion := none, separator := none, build := none,
        maven := "net.fabricmc:intermediary:1.19.4", version := "1.19.4", stable := true }
    launcherMeta :=
      { version := 1
        libraries :=
          { client := [ { name := some "net.fabricmc:client-lib:1.0",
                          url := some "https://maven.fabricmc.net/" } ]
            common := [ { name := some "org.ow2.asm:asm:9.3",
                          url := some "https://maven.fabricmc.net/" } ]
            server := [ { name := some "net.fabricmc:server-lib:1.0", url := none } ] }
        mainClass := Json.obj
          [ ("client", Json.str "net.fabricmc.loader.impl.launch.knot.KnotClient"),
            ("server", Json.str "net.fabricmc.loader.impl.launch.knot.KnotServer") ] } }

/-- A concrete path-layout function in the shape of
`MinecraftLocation::get_version_json`: `versions/<id>/<id>.json`. -/
def gvj0 : String → Path :=
  fun i => ["versions", i, i ++ ".json"]

/-- All-default install options (the options of the repository's test). -/
def options0 : FabricInstallOptions :=
  { inherits_from := none, version_id := none, size := none, yarn_version := none }

/-- Options selecting a yarn mapping layer, with no overrides. -/
def optYarn : FabricInstallOptions :=
  { inherits_from := none, version_id := none, size := none,
    yarn_version := some (YarnVersion.String "1.19.4+build.1") }

/-- Options carrying an explicit version-id override. -/
def optOverride : FabricInstallOptions :=
  { inherits_from := some "base-version", version_id := some "custom-id",
    size := some FabricInstallSide.Server,
    yarn_version := some (YarnVersion.String "1.19.4+build.1") }

/-- Options carrying an explicit empty version-id override. -/
def optEmptyId : FabricInstallOptions :=
  { inherits_from := none, version_id := some "", size := none, yarn_version := none }

/-- A filesystem in which the first component of every `gvj0` path already
exists as a regular file, so `create_dir_all` must fail. -/
def fsBlocked : FsState :=
  fun q => if q = ["versions"] then some (FsEntry.file "not a directory") else none

end Fabric

section ConcreteEvaluation

open Fabric

/-! Concrete evaluations of the embedding, matching the spec's concrete
scenario (bundle loader 0.1.0.48 / intermediary 1.19.4, default options):
id `1.19.4-fabric0.1.0.48`, inheritsFrom `1.19.4`, the client main class,
and the serialized library list; plus the degenerate yarn-selector id and
the panic on a blocked filesystem. -/

example : resolveId sampleLoader options0 = "1.19.4-fabric0.1.0.48" := by decide
example : resolveId sampleLoader optYarn = "-loader0.1.0.48" := by decide
example : (buildVersionJSON sampleLoader options0).inheritsFrom = "1.19.4" := by decide
example : (buildVersionJSON sampleLoader options0).mainClass
    = "net.fabricmc.loader.impl.launch.knot.KnotClient" := by decide
example : outcomeId (install_fabric sampleLoader gvj0 options0 emptyFs)
    = some "1.19.4-fabric0.1.0.48" := rfl
example : install_fabric sampleLoader gvj0 options0 fsBlocked = InstallOutcome.panicked := rfl
example : (buildVersionJSON sampleLoader options0).libraries
    = "[\x7b\"name\":\"net.fabricmc:fabric-loader:0.1.0.48\",\"url\":\"https://maven.fabricmc.net/\"\x7d,\x7b\"name\":\"net.fabricmc:intermediary:1.19.4\",\"url\":\"https://maven.fabricmc.net/\"\x7d,\x7b\"name\":\"org.ow2.asm:asm:9.3\",\"url\":\"https://maven.fabricmc.net/\"\x7d,\x7b\"name\":\"net.fabricmc:client-lib:1.0\",\"url\":\"https://maven.fabricmc.net/\"\x7d]"
    := by decide

end ConcreteEvaluation

namespace Fabric

/-- C1: when the options carry no explicit version-id override, the
descriptor id (also returned by `install_fabric`) is
`<base>-loader<loaderVersion>` when a mapping (yarn) selector is present
and `<base>-fabric<loaderVersion>` when it is not, where `<base>` is the
resolved base Minecraft version (the bundle's intermediary version when no
mapping selector is supplied). -/
theorem fabric_id_synthesis (loader : FabricLoaderArtifact) (options : FabricInstallOptions)
    (h : options.version_id = none) :
    (options.yarn_version.isSome = true →
        (buildVersionJSON loader options).id
          = resolveMinecraftVersion loader options ++ "-loader" ++ loader.loader.version)
    ∧ (options.yarn_version = none →
        (buildVersionJSON loader options).id
          = resolveMinecraftVersion loader options ++ "-fabric" ++ loader.loader.version)
    ∧ (options.yarn_version = none →
        resolveMinecraftVersion loader options = loader.intermediary.version)
    ∧ (∀ gvj fs rid g, install_fabric loader gvj options fs = InstallOutcome.ok rid g →
        rid = (buildVersionJSON loader options).id) := by
  refine ⟨?_, ?_, ?_, ?_⟩
  · intro hy
    cases hyv : options.yarn_version with
    | none => rw [hyv] at hy; simp at hy
    | some yv =>
      cases yv <;>
        simp [buildVersionJSON, resolveId, resolveYarn, resolveMinecraftVersion, h, hyv]
  · intro hy
    simp [buildVersionJSON, resolveId, resolveYarn, resolveMinecraftVersion, h, hy]
  · intro hy
    simp [resolveMinecraftVersion, hy]
  · intro gvj fs rid g hok
    simp only [install_fabric] at hok
    split at hok
    · injection hok with h1 h2
      exact h1.symm
    · exact InstallOutcome.noConfusion hok

/-- Witness for C1 at the concrete sample bundle: with a yarn selector the
id takes the `-loader` form, without one the `-fabric` form. -/
theorem fabric_id_synthesis_witness :
    (buildVersionJSON sampleLoader optYarn).id
      = resolveMinecraftVersion sampleLoader optYarn ++ "-loader" ++ sampleLoader.loader.version
    ∧ (buildVersionJSON sampleLoader options0).id
      = resolveMinecraftVersion sampleLoader options0 ++ "-fabric" ++ sampleLoader.loader.version :=
  ⟨(fabric_id_synthesis sampleLoader optYarn rfl).1 rfl,
   (fabric_id_synthesis sampleLoader options0 rfl).2.1 rfl⟩

/-- C3 (code behaviour at the failing input): with no version-id override
and a yarn selector supplied (so no derivable base version), the install
does not fail: it writes and returns the degenerate id
`"-loader0.1.0.48"` with an empty `inheritsFrom`; and with an explicit
empty override the descriptor is written with an empty id.  No
resolution-error path exists in the code. -/
theorem fabric_missing_base_no_error :
    outcomeId (install_fabric sampleLoader gvj0 optYarn emptyFs) = some "-loader0.1.0.48"
    ∧ (buildVersionJSON sampleLoader optYarn).id = "-loader0.1.0.48"
    ∧ (buildVersionJSON sampleLoader optYarn).inheritsFrom = ""
    ∧ (buildVersionJSON sampleLoader optEmptyId).id = ""
    ∧ outcomeId (install_fabric sampleLoader gvj0 optEmptyId emptyFs) = some "" :=
  ⟨rfl, rfl, rfl, rfl, rfl⟩

/-- C4: with an explicit version-id override, the descriptor's id and the
value returned by `install_fabric` both equal the override exactly. -/
theorem fabric_id_override (loader : FabricLoaderArtifact) (options : FabricInstallOptions)
    (v : String) (h : options.version_id = some v) :
    (buildVersionJSON loader options).id = v
    ∧ (∀ gvj fs rid g, install_fabric loader gvj options fs = InstallOutcome.ok rid g →
        rid = v) := by
  have hid : (buildVersionJSON loader options).id = v := by
    simp [buildVersionJSON, resolveId, h]
  refine ⟨hid, ?_⟩
  intro gvj fs rid g hok
  simp only [install_fabric] at hok
  split at hok
  · injection hok with h1 h2
    exact h1.symm.trans hid
  · exact InstallOutcome.noConfusion hok

/-- Witness for C4: the override `"custom-id"` lands in the descriptor
unchanged, regardless of the other option fields. -/
theorem fabric_id_override_witness :
    (buildVersionJSON sampleLoader optOverride).id = "custom-id" :=
  (fabric_id_override sampleLoader optOverride "custom-id" rfl).1

theorem getElem?_append_offset {α : Type} (A l₂ : List α) (i : Nat) :
    (A ++ l₂)[A.length + i]? = l₂[i]? := by
  rw [List.getElem?_append_right (Nat.le_add_right _ _)]
  congr 1
  omega

theorem buildLibraries_eq (loader : FabricLoaderArtifact) (yarn : Option String)
    (side : FabricInstallSide) :
    buildLibraries loader yarn side
      = ({ name := some loader.loader.maven, url := some fabricMavenUrl }
          :: { name := some loader.intermediary.maven, url := some fabricMavenUrl }
          :: yarnLibs yarn)
        ++ (loader.launcherMeta.libraries.common ++ sideLibraries loader side) := by
  cases yarn <;> simp [buildLibraries, yarnLibs]

theorem buildLibraries_spec_aux (loader : FabricLoaderArtifact) (yarn : Option String)
    (side : FabricInstallSide) :
    (buildLibraries loader yarn side).length
      = 2 + yarnCount yarn + loader.launcherMeta.libraries.common.length
        + (sideLibraries loader side).length
    ∧ (buildLibraries loader yarn side)[0]?
      = some { name := some loader.loader.maven, url := some fabricMavenUrl }
    ∧ (buildLibraries loader yarn side)[1]?
      = some { name := some loader.intermediary.maven, url := some fabricMavenUrl }
    ∧ (∀ y, yarn = some y →
        (buildLibraries loader yarn side)[2]?
          = some { name := some ("net.fabricmc:yarn:" ++ y), url := some fabricMavenUrl })
    ∧ (∀ i, i < loader.launcherMeta.libraries.common.length →
        (buildLibraries loader yarn side)[2 + yarnCount yarn + i]?
          = loader.launcherMeta.libraries.common[i]?)
    ∧ (∀ i, i < (sideLibraries loader side).length →
        (buildLibraries loader yarn side)[2 + yarnCount yarn
            + loader.launcherMeta.libraries.common.length + i]?
          = (sideLibraries loader side)[i]?) := by
  have heq := buildLibraries_eq loader yarn side
  cases yarn with
  | none =>
    refine ⟨?_, ?_, ?_, ?_, ?_, ?_⟩
    · rw [heq]; simp [yarnLibs, yarnCount, List.length_append]; omega
    · simp [heq, yarnLibs, List.getElem?_cons_zero]
    · simp [heq, yarnLibs, List.getElem?_cons_zero, List.getElem?_cons_succ]
    · intro y hy; exact Option.noConfusion hy
    · intro i hi
      rw [heq]
      have hidx : 2 + yarnCount (none : Option String) + i
          = (({ name := some loader.loader.maven, url := some fabricMavenUrl }
              :: { name := some loader.intermediary.maven, url := some fabricMavenUrl }
              :: yarnLibs (none : Option String)) : List LauncherMetaLibrariesItems).length + i := by
        simp [yarnLibs, yarnCount]
      rw [hidx, getElem?_append_offset]
      exact List.getElem?_append_left hi
    · intro i hi
      rw [heq]
      have hidx : 2 + yarnCount (none : Option String)
            + loader.launcherMeta.libraries.common.length + i
          = (({ name := some loader.loader.maven, url := some fabricMavenUrl }
              :: { name := some loader.intermediary.maven, url := some fabricMavenUrl }
              :: yarnLibs (none : Option String)) : List LauncherMetaLibrariesItems).length
            + (loader.launcherMeta.libraries.common.length + i) := by
        simp [yarnLibs, yarnCount]; omega
      rw [hidx, getElem?_append_offset, getElem?_append_offset]
  | some y0 =>
    refine ⟨?_, ?_, ?_, ?_, ?_, ?_⟩
    · rw [heq]; simp [yarnLibs, yarnCount, List.length_append]; omega
    · simp [heq, yarnLibs, List.getElem?_cons_zero]
    · simp [heq, yarnLibs, List.getElem?_cons_zero, List.getElem?_cons_succ]
    · intro y hy
      injection hy with hy
      subst hy
      simp [heq, yarnLibs, List.getElem?_cons_zero, List.getElem?_cons_succ]
    · intro i hi
      rw [heq]
      have hidx : 2 + yarnCount (some y0) + i
          = (({ name := some loader.loader.maven, url := some fabricMavenUrl }
              :: { name := some loader.intermediary.maven, url := some fabricMavenUrl }
              :: yarnLibs (some y0)) : List LauncherMetaLibrariesItems).length + i := by
        simp [yarnLibs, yarnCount]; try omega
      rw [hidx, getElem?_append_offset]
      exact List.getElem?_append_left hi
    · intro i hi
      rw [heq]
      have hidx : 2 + yarnCount (some y0)
            + loader.launcherMeta.libraries.common.length + i
          = (({ name := some loader.loader.maven, url := some fabricMavenUrl }
              :: { name := some loader.intermediary.maven, url := some fabricMavenUrl }
              :: yarnLibs (some y0)) : List LauncherMetaLibrariesItems).length
            + (loader.launcherMeta.libraries.common.length + i) := by
        simp [yarnLibs, yarnCount]; omega
      rw [hidx, getElem?_append_offset, getElem?_append_offset]

/-- C2: the assembled library list has length
`2 + (1 if mapping selected else 0) + |common| + |side list|` and its
order is exactly loader coordinate, intermediary coordinate, optional
synthesized yarn coordinate (the first entries carrying the fixed
repository URL), then the common list, then the side-specific list, all in
original order with nothing dropped or deduplicated. -/
theorem fabric_libraries_order (loader : FabricLoaderArtifact) (options : FabricInstallOptions) :
    (buildLibraries loader (resolveYarn options) (sideOf options)).length
      = 2 + yarnCount (resolveYarn options) + loader.launcherMeta.libraries.common.length
        + (sideLibraries loader (sideOf options)).length
    ∧ (buildLibraries loader (resolveYarn options) (sideOf options))[0]?
      = some { name := some loader.loader.maven, url := some fabricMavenUrl }
    ∧ (buildLibraries loader (resolveYarn options) (sideOf options))[1]?
      = some { name := some loader.intermediary.maven, url := some fabricMavenUrl }
    ∧ (∀ y, resolveYarn options = some y →
        (buildLibraries loader (resolveYarn options) (sideOf options))[2]?
          = some { name := some ("net.fabricmc:yarn:" ++ y), url := some fabricMavenUrl })
    ∧ (∀ i, i < loader.launcherMeta.libraries.common.length →
        (buildLibraries loader (resolveYarn options) (sideOf options))[2
            + yarnCount (resolveYarn options) + i]?
          = loader.launcherMeta.libraries.common[i]?)
    ∧ (∀ i, i < (sideLibraries loader (sideOf options)).length →
        (buildLibraries loader (resolveYarn options) (sideOf options))[2
            + yarnCount (resolveYarn options)
            + loader.launcherMeta.libraries.common.length + i]?
          = (sideLibraries loader (sideOf options))[i]?)
    ∧ (sideOf options = FabricInstallSide.Client →
        sideLibraries loader (sideOf options) = loader.launcherMeta.libraries.client)
    ∧ (sideOf options = FabricInstallSide.Server →
        sideLibraries loader (sideOf options) = loader.launcherMeta.libraries.server) := by
  obtain ⟨h1, h2, h3, h4, h5, h6⟩ :=
    buildLibraries_spec_aux loader (resolveYarn options) (sideOf options)
  refine ⟨h1, h2, h3, h4, h5, h6, ?_, ?_⟩
  · intro hs; rw [hs]; rfl
  · intro hs; rw [hs]; rfl

/-- Witness for C2 at the sample bundle with a yarn selector and client
side: length 6 and every position as specified. -/
theorem fabric_libraries_order_witness :
    (buildLibraries sampleLoader (resolveYarn optYarn) (sideOf optYarn)).length
      = 2 + yarnCount (resolveYarn optYarn) + sampleLoader.launcherMeta.libraries.common.length
        + (sideLibraries sampleLoader (sideOf optYarn)).length
    ∧ (buildLibraries sampleLoader (resolveYarn optYarn) (sideOf optYarn))[2]?
      = some { name := some ("net.fabricmc:yarn:" ++ "1.19.4+build.1"),
               url := some fabricMavenUrl }
    ∧ (buildLibraries sampleLoader (resolveYarn optYarn) (sideOf optYarn))[3]?
      = sampleLoader.launcherMeta.libraries.common[0]?
    ∧ (buildLibraries sampleLoader (resolveYarn optYarn) (sideOf optYarn))[4]?
      = (sideLibraries sampleLoader (sideOf optYarn))[0]? := by
  obtain ⟨h1, h2, h3, h4, h5, h6, h7, h8⟩ := fabric_libraries_order sampleLoader optYarn
  exact ⟨h1, h4 "1.19.4+build.1" rfl, h5 0 (by decide), h6 0 (by decide)⟩

/-- C5: main-class selection — a per-side object yields the value under
the requested side's key; an object without that key falls back to
reading the whole value as a string, which fails and yields `""`; a
scalar string is returned unchanged for both sides. -/
theorem fabric_main_class_selection :
    (∀ fields side s, lookupObj fields (sideKey side) = some (Json.str s) →
        selectMainClass (Json.obj fields) side = s)
    ∧ (∀ fields side, lookupObj fields (sideKey side) = none →
        selectMainClass (Json.obj fields) side = "")
    ∧ (∀ s side, selectMainClass (Json.str s) side = s) := by
  refine ⟨?_, ?_, ?_⟩
  · intro fields side s hl
    cases side <;> simp_all [selectMainClass, sideKey, Json.index, Json.as_str]
  · intro fields side hl
    cases side <;> simp_all [selectMainClass, sideKey, Json.index, Json.as_str]
  · intro s side
    cases side <;> simp [selectMainClass, Json.index, Json.as_str]

/-- Witness for C5: a per-side object with a `"client"` key resolves to
the client class for `Side::Client`. -/
theorem fabric_main_class_selection_witness :
    selectMainClass (Json.obj [("client", Json.str "a.b.KnotClient")])
      FabricInstallSide.Client = "a.b.KnotClient" :=
  fabric_main_class_selection.1 [("client", Json.str "a.b.KnotClient")]
    FabricInstallSide.Client "a.b.KnotClient" rfl

/-- C6: `inheritsFrom` equals the options' explicit override when present,
and otherwise the resolved base Minecraft version — which is `""` when a
mapping selector was supplied, and the bundle's intermediary version when
it was not. -/
theorem fabric_inherits_from (loader : FabricLoaderArtifact) (options : FabricInstallOptions) :
    (∀ v, options.inherits_from = some v →
        (buildVersionJSON loader options).inheritsFrom = v)
    ∧ (options.inherits_from = none →
        (buildVersionJSON loader options).inheritsFrom
          = resolveMinecraftVersion loader options)
    ∧ (options.yarn_version.isSome = true → resolveMinecraftVersion loader options = "")
    ∧ (options.yarn_version = none →
        resolveMinecraftVersion loader options = loader.intermediary.version) := by
  refine ⟨?_, ?_, ?_, ?_⟩
  · intro v hv
    simp [buildVersionJSON, hv]
  · intro hv
    simp [buildVersionJSON, hv]
  · intro hy
    cases hyv : options.yarn_version with
    | none => rw [hyv] at hy; simp at hy
    | some yv => simp [resolveMinecraftVersion, hyv]
  · intro hy
    simp [resolveMinecraftVersion, hy]

/-- Witness for C6: with a yarn selector and no override, `inheritsFrom`
is the empty string. -/
theorem fabric_inherits_from_witness :
    (buildVersionJSON sampleLoader optYarn).inheritsFrom = "" := by
  have h := fabric_inherits_from sampleLoader optYarn
  rw [h.2.1 rfl, h.2.2.1 rfl]

theorem setFs_same (fs : FsState) (p : Path) (v : Option FsEntry) : setFs fs p v p = v := by
  simp [setFs]

theorem setFs_other (fs : FsState) (p : Path) (v : Option FsEntry) (q : Path)
    (hq : q ≠ p) : setFs fs p v q = fs q := by
  simp [setFs, hq]

theorem strictlyUnder_iff (p q : Path) :
    strictlyUnder p q = true ↔ (pathUnder p q = true ∧ p ≠ q) := by
  simp [strictlyUnder]

theorem pathUnder_append : ∀ (p s : Path), pathUnder p (p ++ s) = true
  | [], _ => rfl
  | a :: as, s => by simp [pathUnder, pathUnder_append as s]

theorem pathUnder_nil_right : ∀ p : Path, pathUnder p [] = true → p = []
  | [], _ => rfl
  | a :: as, h => by simp [pathUnder] at h

theorem pathUnder_exists : ∀ (p q : Path), pathUnder p q = true → ∃ s, q = p ++ s
  | [], q, _ => ⟨q, rfl⟩
  | a :: as, [], h => by simp [pathUnder] at h
  | a :: as, b :: bs, h => by
    simp only [pathUnder, Bool.and_eq_true, beq_iff_eq] at h
    obtain ⟨s, hs⟩ := pathUnder_exists as bs h.2
    exact ⟨s, by rw [List.cons_append, ← h.1, ← hs]⟩

theorem pathUnder_length : ∀ (p q : Path), pathUnder p q = true → p.length ≤ q.length
  | [], _, _ => Nat.zero_le _
  | a :: as, [], h => by simp [pathUnder] at h
  | a :: as, b :: bs, h => by
    simp only [pathUnder, Bool.and_eq_true, beq_iff_eq] at h
    simpa using Nat.succ_le_succ (pathUnder_length as bs h.2)

theorem pathUnder_antisymm (p q : Path) (h1 : pathUnder p q = true)
    (h2 : pathUnder q p = true) : p = q := by
  obtain ⟨s, hs⟩ := pathUnder_exists p q h1
  have hl2 := pathUnder_length q p h2
  rw [hs] at hl2 ⊢
  rw [List.length_append] at hl2
  have hsnil : s = [] := List.length_eq_zero.mp (by omega)
  rw [hsnil, List.append_nil]

theorem pathUnder_snoc (r base : Path) (d : String)
    (h : pathUnder r (base ++ [d]) = true) :
    r = base ++ [d] ∨ pathUnder r base = true := by
  obtain ⟨s, hs⟩ := pathUnder_exists r _ h
  rcases List.eq_nil_or_concat' s with hnil | ⟨L, x, hLx⟩
  · left
    rw [hnil, List.append_nil] at hs
    exact hs.symm
  · right
    rw [hLx, ← List.append_assoc] at hs
    have hbase : base = r ++ L := by
      have hdl := congrArg List.dropLast hs
      simpa using hdl
    rw [hbase]
    exact pathUnder_append r L

theorem pathUnder_strict_dropLast (q p : Path) (h : pathUnder q p = true)
    (hne : q ≠ p) : pathUnder q p.dropLast = true := by
  obtain ⟨s, hs⟩ := pathUnder_exists q p h
  have hsne : s ≠ [] := by
    rintro rfl
    rw [List.append_nil] at hs
    exact hne hs.symm
  rw [hs, List.dropLast_append_of_ne_nil q hsne]
  exact pathUnder_append q s.dropLast

theorem FsWf_set_dir (fs : FsState) (base : Path) (d : String)
    (hwf : FsWf fs) (hbase : base = [] ∨ fs base = some FsEntry.dir)
    (_hnone : fs (base ++ [d]) = none) :
    FsWf (setFs fs (base ++ [d]) (some FsEntry.dir)) := by
  intro q e hq r hrne hru
  by_cases hqp : q = base ++ [d]
  · subst hqp
    have hPU := (strictlyUnder_iff r _).mp hru
    rcases pathUnder_snoc r base d hPU.1 with heq | hrb
    · exact absurd heq hPU.2
    · by_cases hrbeq : r = base
      · rw [setFs_other fs _ _ r hPU.2]
        rcases hbase with hb | hb
        · exact absurd (hrbeq.trans hb) hrne
        · rw [hrbeq]
          exact hb
      · have hneB : base ≠ [] := by
          intro hb0
          rw [hb0] at hrb
          exact hrne (pathUnder_nil_right r hrb)
        rcases hbase with hb | hb
        · exact absurd hb hneB
        · have hru2 : strictlyUnder r base = true :=
            (strictlyUnder_iff r base).mpr ⟨hrb, hrbeq⟩
          rw [setFs_other fs _ _ r hPU.2]
          exact hwf base FsEntry.dir hb r hrne hru2
  · have hq' : fs q = some e := by
      rw [setFs_other fs _ _ q hqp] at hq
      exact hq
    by_cases hrp : r = base ++ [d]
    · rw [hrp, setFs_same]
    · rw [setFs_other fs _ _ r hrp]
      exact hwf q e hq' r hrne hru

theorem mkdirAllFrom_ok (rest : List String) :
    ∀ (fs : FsState) (base : Path) (fs' : FsState),
      FsWf fs → (base = [] ∨ fs base = some FsEntry.dir) →
      mkdirAllFrom fs base rest = Except.ok fs' →
      FsWf fs'
      ∧ (∀ q, fs' q = fs q ∨ (fs q = none ∧ fs' q = some FsEntry.dir))
      ∧ (∀ pre suf, rest = pre ++ suf → pre ≠ [] → fs' (base ++ pre) = some FsEntry.dir)
      ∧ (base = [] ∨ fs' base = some FsEntry.dir) := by
  induction rest with
  | nil =>
    intro fs base fs' hwf hbase h
    simp only [mkdirAllFrom] at h
    injection h with h
    subst h
    refine ⟨hwf, fun q => Or.inl rfl, ?_, hbase⟩
    intro pre suf hps hpre
    cases pre with
    | nil => exact absurd rfl hpre
    | cons a as => simp at hps
  | cons d rest ih =>
    intro fs base fs' hwf hbase h
    simp only [mkdirAllFrom] at h
    cases hp : fs (base ++ [d]) with
    | some e =>
      cases e with
      | file c =>
        rw [hp] at h
        exact Except.noConfusion h
      | dir =>
        rw [hp] at h
        obtain ⟨ih1, ih2, ih3, ih4⟩ := ih fs (base ++ [d]) fs' hwf (Or.inr hp) h
        refine ⟨ih1, ih2, ?_, ?_⟩
        · intro pre suf hps hpre
          cases pre with
          | nil => exact absurd rfl hpre
          | cons a as =>
            rw [List.cons_append] at hps
            injection hps with h1 h2
            subst h1
            cases as with
            | nil =>
              have h4 := ih4.resolve_left (by simp)
              simpa using h4
            | cons a2 as2 =>
              have h3 := ih3 (a2 :: as2) suf h2 (by simp)
              have hre : base ++ (d :: a2 :: as2) = (base ++ [d]) ++ (a2 :: as2) := by
                simp
              rw [hre]
              exact h3
        · rcases hbase with hb | hb
          · exact Or.inl hb
          · rcases ih2 base with h2 | ⟨h2a, h2b⟩
            · exact Or.inr (h2.trans hb)
            · exact Or.inr h2b
    | none =>
      rw [hp] at h
      have hwfS : FsWf (setFs fs (base ++ [d]) (some FsEntry.dir)) :=
        FsWf_set_dir fs base d hwf hbase hp
      have hbaseS : (base ++ [d]) = []
          ∨ setFs fs (base ++ [d]) (some FsEntry.dir) (base ++ [d]) = some FsEntry.dir :=
        Or.inr (setFs_same fs (base ++ [d]) (some FsEntry.dir))
      obtain ⟨ih1, ih2, ih3, ih4⟩ :=
        ih (setFs fs (base ++ [d]) (some FsEntry.dir)) (base ++ [d]) fs' hwfS hbaseS h
      refine ⟨ih1, ?_, ?_, ?_⟩
      · intro q
        by_cases hq : q = base ++ [d]
        · rw [hq]
          rcases ih2 (base ++ [d]) with h2 | ⟨h2a, h2b⟩
          · right
            rw [setFs_same] at h2
            exact ⟨hp, h2⟩
          · right
            exact ⟨hp, h2b⟩
        · rcases ih2 q with h2 | ⟨h2a, h2b⟩
          · left
            rw [h2, setFs_other fs _ _ q hq]
          · right
            rw [setFs_other fs _ _ q hq] at h2a
            exact ⟨h2a, h2b⟩
      · intro pre suf hps hpre
        cases pre with
        | nil => exact absurd rfl hpre
        | cons a as =>
          rw [List.cons_append] at hps
          injection hps with h1 h2
          subst h1
          cases as with
          | nil =>
            have h4 := ih4.resolve_left (by simp)
            simpa using h4
          | cons a2 as2 =>
            have h3 := ih3 (a2 :: as2) suf h2 (by simp)
            have hre : base ++ (d :: a2 :: as2) = (base ++ [d]) ++ (a2 :: as2) := by
              simp
            rw [hre]
            exact h3
      · rcases hbase with hb | hb
        · exact Or.inl hb
        · have hnb : base ≠ base ++ [d] := by simp
          have hS : setFs fs (base ++ [d]) (some FsEntry.dir) base = some FsEntry.dir := by
            rw [setFs_other fs _ _ base hnb]
            exact hb
          rcases ih2 base with h2 | ⟨h2a, h2b⟩
          · exact Or.inr (h2.trans hS)
          · exact Or.inr h2b

/-- C7: on success, the writer step leaves exactly the freshly serialized
descriptor at the target path — the path holds the new file content, every
pre-existing file or directory content at or below the path is gone, and
all parent directories of the path exist as directories. -/
theorem fabric_write_descriptor (fs : FsState) (p : Path) (c : String) (fs' : FsState)
    (hwf : FsWf fs) (hp : p ≠ [])
    (h : writeVersionFile fs p c = Except.ok fs') :
    fs' p = some (FsEntry.file c)
    ∧ (∀ q, strictlyUnder p q = true → fs' q = none)
    ∧ (∀ q, q ≠ [] → strictlyUnder q p = true → fs' q = some FsEntry.dir) := by
  simp only [writeVersionFile] at h
  cases hmk : mkdirAll fs p.dropLast with
  | error e =>
    rw [hmk] at h
    exact Except.noConfusion h
  | ok fs1 =>
    rw [hmk] at h
    have hfin : fs' = setFs (removeExisting fs1 p) p (some (FsEntry.file c)) := by
      have h2 : Except.ok (setFs (removeExisting fs1 p) p (some (FsEntry.file c)))
          = Except.ok fs' := h
      injection h2 with h3
      exact h3.symm
    subst hfin
    have hmk' : mkdirAllFrom fs [] p.dropLast = Except.ok fs1 := hmk
    obtain ⟨mk1, mk2, mk3, mk4⟩ :=
      mkdirAllFrom_ok p.dropLast fs [] fs1 hwf (Or.inl rfl) hmk'
    have hances : ∀ q, q ≠ [] → strictlyUnder q p = true → fs1 q = some FsEntry.dir := by
      intro q hqne hqu
      have hPU := (strictlyUnder_iff q p).mp hqu
      have hq' : pathUnder q p.dropLast = true :=
        pathUnder_strict_dropLast q p hPU.1 hPU.2
      obtain ⟨s, hs⟩ := pathUnder_exists q p.dropLast hq'
      have h3 := mk3 q s hs hqne
      simpa using h3
    refine ⟨setFs_same _ p _, ?_, ?_⟩
    · intro q hqu
      have hPU := (strictlyUnder_iff p q).mp hqu
      have hqp : q ≠ p := fun e => hPU.2 e.symm
      rw [setFs_other _ p _ q hqp]
      cases hf1 : fs1 p with
      | none =>
        simp only [removeExisting, hf1]
        cases hfq : fs1 q with
        | none => rfl
        | some e2 =>
          have hdir := mk1 q e2 hfq p hp hqu
          rw [hdir] at hf1
          exact Option.noConfusion hf1
      | some e =>
        cases e with
        | file c0 =>
          simp only [removeExisting, hf1]
          rw [setFs_other fs1 p none q hqp]
          cases hfq : fs1 q with
          | none => rfl
          | some e2 =>
            have hdir := mk1 q e2 hfq p hp hqu
            rw [hdir] at hf1
            simp at hf1
        | dir =>
          simp only [removeExisting, hf1]
          simp [removeDirAll, hPU.1]
    · intro q hqne hqu
      have hPU := (strictlyUnder_iff q p).mp hqu
      rw [setFs_other _ p _ q hPU.2]
      have hRE : removeExisting fs1 p q = fs1 q := by
        cases hf1 : fs1 p with
        | none => simp [removeExisting, hf1]
        | some e =>
          cases e with
          | file c0 =>
            simp only [removeExisting, hf1]
            exact setFs_other fs1 p none q hPU.2
          | dir =>
            have hnotunder : pathUnder p q = false := by
              cases hb : pathUnder p q with
              | false => rfl
              | true => exact absurd (pathUnder_antisymm q p hPU.1 hb) hPU.2
            simp [removeExisting, hf1, removeDirAll, hnotunder]
      rw [hRE]
      exact hances q hqne hqu

/-- Witness for C7: writing into an empty store creates the parent
directories, puts the file content at the target, and leaves nothing
below it. -/
theorem fabric_write_descriptor_witness :
    ∃ g, writeVersionFile emptyFs ["versions", "a", "a.json"] "data" = Except.ok g
      ∧ g ["versions", "a", "a.json"] = some (FsEntry.file "data")
      ∧ g ["versions", "a"] = some FsEntry.dir
      ∧ g ["versions", "a", "a.json", "x"] = none := by
  have hwf : FsWf emptyFs := fun q e hq => Option.noConfusion hq
  have h := fabric_write_descriptor emptyFs ["versions", "a", "a.json"] "data" _
    hwf (by decide) rfl
  exact ⟨_, rfl, h.1, h.2.2 ["versions", "a"] (by decide) (by decide),
    h.2.1 ["versions", "a", "a.json", "x"] (by decide)⟩

/-- C8 (code behaviour at the failing input): when a filesystem step fails
(here `create_dir_all`, because a path component already exists as a
regular file), `install_fabric` panics — the `.unwrap()` calls turn the
failure into process termination instead of an error value; the function's
return type carries no error channel at all. -/
theorem fabric_fs_failure_panics :
    install_fabric sampleLoader gvj0 options0 fsBlocked = InstallOutcome.panicked := rfl

/-- C9: an install is deterministic — identical inputs produce identical
descriptors and identical serialized bytes, and the two timestamp fields
are the fixed constant `"2023-05-13T15:58:54.493Z"`. -/
theorem fabric_install_deterministic (loader : FabricLoaderArtifact)
    (options : FabricInstallOptions) (gvj : String → Path) (fs : FsState) :
    install_fabric loader gvj options fs = install_fabric loader gvj options fs
    ∧ buildVersionJSON loader options = buildVersionJSON loader options
    ∧ toStringPretty (buildVersionJSON loader options)
        = toStringPretty (buildVersionJSON loader options)
    ∧ (buildVersionJSON loader options).releaseTime = "2023-05-13T15:58:54.493Z"
    ∧ (buildVersionJSON loader options).time = "2023-05-13T15:58:54.493Z" :=
  ⟨rfl, rfl, rfl, rfl, rfl⟩

/-- C10: the persisted `libraries` field is the serialized library list
embedded as a JSON string (never a nested array), obtained from the
fallible serializer through the `unwrap_or("")` fallback, which yields the
empty string when serialization fails. -/
theorem fabric_libraries_field_string (loader : FabricLoaderArtifact)
    (options : FabricInstallOptions) :
    (buildVersionJSON loader options).libraries
      = librariesFieldOf (serdeToStringLibs
          (buildLibraries loader (resolveYarn options) (sideOf options)))
    ∧ lookupObj (descriptorJsonFields (buildVersionJSON loader options)) "libraries"
      = some (Json.str (buildVersionJSON loader options).libraries)
    ∧ librariesFieldOf none = ""
    ∧ (∀ s, librariesFieldOf (some s) = s) :=
  ⟨rfl, rfl, rfl, fun _ => rfl⟩

end Fabric
